import Mathlib

/-!
Verification of the linker-script DSL front end (grammar + AST builder).

The AST types below are translated from `src/lib.rs`.  The grammar file
(`linkrs.pest`) and the AST builder are not part of the published source
tree, so the parsing functions are modelled from the specification
(precedence climbing, numeric-literal normalization, permission-flag
folding, cfg attachment, block structure) and checked against the
behaviour the specification and the repository's tests describe.
-/

set_option maxRecDepth 8192

namespace Linkrs

/-- Operator tag, translated from `enum BinOp` in src/lib.rs. -/
inductive BinOp
  | add | sub | mul | div | mod
  | lt | gt | le | ge | eq | ne
deriving DecidableEq, Repr

/-- Expression tree, translated from `enum Expr` in src/lib.rs.
Numbers carry the unsigned 64-bit magnitude as a `Nat` (the builder
guarantees the value fits in 64 bits). -/
inductive Expr
  | number (n : Nat)
  | ident (s : String)
  | here
  | size
  | binOp (left : Expr) (op : BinOp) (right : Expr)
  | unaryMinus (e : Expr)
  | member (e : Expr) (field : String)
  | call (func : Expr) (args : List Expr)
deriving Repr

/-- Read/write/execute permission flags, translated from `struct Permissions`
in src/lib.rs (`#[derive(Default)]`: all flags default to false). -/
structure Permissions where
  read : Bool
  write : Bool
  execute : Bool
deriving DecidableEq, Repr

/-- The Rust `Default` instance: all three flags false. -/
def Permissions.default : Permissions := ⟨false, false, false⟩

/-- Named constant declaration, translated from `struct ConstDecl`. -/
structure ConstDecl where
  public : Bool
  name : String
  type_ann : Option String
  value : Expr
deriving Repr

/-- One memory region, translated from `struct Region`. -/
structure Region where
  name : String
  permissions : Permissions
  start : Expr
  size : Expr
deriving Repr

/-- Set of memory regions, translated from `struct MemoryMap`. -/
structure MemoryMap where
  regions : List Region
deriving Repr

/-- ELF segment type, translated from `enum SegmentType` (7 kinds). -/
inductive SegmentType
  | load | dynamic | interp | note | phdr | tls | null
deriving DecidableEq, Repr

/-- One ELF program-header descriptor, translated from `struct Segment`. -/
structure Segment where
  name : String
  segment_type : SegmentType
  permissions : Permissions
deriving Repr

/-- ELF segments block, translated from `struct ElfSegments`. -/
structure ElfSegments where
  segments : List Segment
deriving Repr

/-- Placement directives, translated from `struct AddressBlock` (7 optional fields). -/
structure AddressBlock where
  start : Option Expr
  size : Option Expr
  alignment : Option Expr
  follows : Option String
  virtual_base : Option Expr
  region : Option String
  load_from_region : Option String
deriving Repr

/-- File-offset directive start, translated from `enum FilePositionStart`. -/
inductive FilePositionStart
  | origin
  | expr (e : Expr)
deriving Repr

/-- File-offset directive, translated from `struct FilePosition`. -/
structure FilePosition where
  start : FilePositionStart
deriving Repr

/-- Location accessor, translated from `enum LocationAccessor`. -/
inductive LocationAccessor
  | physical
  | virtualAcc
deriving DecidableEq, Repr

/-- here()/physical()/virtual() accessor, translated from `struct LocationExpr`. -/
structure LocationExpr where
  accessor : Option LocationAccessor
deriving Repr

/-- Symbol definition, translated from `struct SymbolDef`. -/
structure SymbolDef where
  public : Bool
  name : String
  value : LocationExpr
deriving Repr

/-- Sort key for input statements, translated from `enum SortKey`. -/
inductive SortKey
  | name | address | alignment
deriving DecidableEq, Repr

/-- Input file/section selection, translated from `struct InputStmt`.
The Rust field `from` is a reserved word in Lean and is rendered `from_`. -/
structure InputStmt where
  from_ : Option String
  patterns : List String
  sort_by : Option SortKey
deriving Repr

/-- Conditional-compilation guard, translated from `enum CfgPredicate`. -/
inductive CfgPredicate
  | feature (s : String)
  | notP (p : CfgPredicate)
  | allP (ps : List CfgPredicate)
  | anyP (ps : List CfgPredicate)
deriving Repr

/-- One content directive, translated from `enum ContentsItem`.
`cfg` wraps exactly one inner item, mirroring `Box<ContentsItem>`. -/
inductive ContentsItem
  | symbol (s : SymbolDef)
  | input (i : InputStmt)
  | keep (i : InputStmt)
  | alignTo (e : Expr)
  | advanceBy (e : Expr)
  | fillPaddingWith (e : Expr)
  | cfg (predicate : CfgPredicate) (item : ContentsItem)
deriving Repr

/-- Ordered list of content items, translated from `struct Contents`. -/
structure Contents where
  items : List ContentsItem
deriving Repr

/-- Build-time invariant check, translated from `struct Assertion`. -/
structure Assertion where
  condition : Expr
  message : String
deriving Repr

/-- One output section, translated from `struct Section` in src/lib.rs:
a required name plus 8 `Option` fields and 2 list fields. -/
structure Section where
  name : String
  place_in : Option String
  load_from : Option String
  output_to : Option String
  permissions : Option Permissions
  occupies_file_space : Option Bool
  address : Option AddressBlock
  file_position : Option FilePosition
  contents : Option Contents
  assertions : List Assertion
  no_cross_refs : List String
deriving Repr

/-- Sections excluded from output, translated from `struct Discard`. -/
structure Discard where
  patterns : List InputStmt
deriving Repr

/-- Weak symbol aliasing table, translated from `struct ProvideSymbols`. -/
structure ProvideSymbols where
  symbols : List (String × String)
deriving Repr

/-- Top-level declaration, translated from `enum Item` (6 kinds). -/
inductive Item
  | constItem (c : ConstDecl)
  | memoryMap (m : MemoryMap)
  | elfSegments (e : ElfSegments)
  | section (s : Section)
  | discard (d : Discard)
  | provideSymbols (p : ProvideSymbols)
deriving Repr

/-- Structured parse error.  `syntaxErr` corresponds to the spec's
`SyntaxError` (input does not match the grammar at a position);
`structural` corresponds to `StructuralError` (builder failure such as
numeric overflow or a missing required child). -/
inductive ParseError
  | syntaxErr (pos : Nat) (expected : String)
  | structural (msg : String)
deriving DecidableEq, Repr

/-! ## Numeric literal normalization

Modelled from the spec: the grammar file `linkrs.pest` and the AST
builder are missing from the source tree; the spec mandates that a
numeric literal is stripped of `_` separators, an optional `0x` prefix
selects hexadecimal, an optional `K`/`M` suffix multiplies by 1024 /
1024², and overflow of the unsigned 64-bit range is a `StructuralError`,
never a silent wrap. -/

/-- Unsigned 64-bit range bound. -/
def U64_LIMIT : Nat := 2 ^ 64

/-- Value of one decimal digit character. -/
def decDigitVal (c : Char) : Option Nat :=
  if '0' ≤ c ∧ c ≤ '9' then some (c.toNat - '0'.toNat) else none

/-- Value of one hexadecimal digit character. -/
def hexDigitVal (c : Char) : Option Nat :=
  if '0' ≤ c ∧ c ≤ '9' then some (c.toNat - '0'.toNat)
  else if 'a' ≤ c ∧ c ≤ 'f' then some (c.toNat - 'a'.toNat + 10)
  else if 'A' ≤ c ∧ c ≤ 'F' then some (c.toNat - 'A'.toNat + 10)
  else none

/-- Accumulate digits of the given base; fails on a non-digit or an empty
digit string. -/
def parseDigits (digitVal : Char → Option Nat) (base : Nat) :
    List Char → Nat → Option Nat
  | [], acc => some acc
  | c :: cs, acc =>
    match digitVal c with
    | some d => parseDigits digitVal base cs (acc * base + d)
    | none => none

/-- Modelled from the spec: applying the unit-suffix multiplier checks the
unsigned 64-bit range; overflow is a `StructuralError`, the value is
never wrapped modulo 2^64. -/
def applyMultiplier (v mult : Nat) : Except ParseError Nat :=
  if v * mult < U64_LIMIT then Except.ok (v * mult)
  else Except.error (ParseError.structural "numeric literal overflow")

/-- Final step of numeric normalization: a failed digit parse is a
builder-level `StructuralError`, a successful one goes through the
multiplier overflow check. -/
def finishNumber (parsed : Option Nat) (mult : Nat) : Except ParseError Nat :=
  match parsed with
  | none => Except.error (ParseError.structural "malformed numeric literal")
  | some v => applyMultiplier v mult

/-- Modelled from the spec: normalization of a numeric literal's raw text
(the grammar and builder are not in the source tree).  Separators are
removed first, then the `K`/`M` suffix is recognised, then the digits are
parsed (hexadecimal after a `0x` prefix, decimal otherwise), and finally
the suffix multiplier is applied with an overflow check. -/
def parseNumberCore (cs : List Char) : Except ParseError Nat :=
  let stripped := cs.filter (fun c => c ≠ '_')
  let suffixed : List Char × Nat :=
    match stripped.getLast? with
    | some 'K' => (stripped.dropLast, 1024)
    | some 'M' => (stripped.dropLast, 1024 * 1024)
    | _ => (stripped, 1)
  let body := suffixed.1
  let parsed : Option Nat :=
    match body with
    | '0' :: 'x' :: rest =>
      match rest with
      | [] => none
      | _ => parseDigits hexDigitVal 16 rest 0
    | _ =>
      match body with
      | [] => none
      | _ => parseDigits decDigitVal 10 body 0
  finishNumber parsed suffixed.2

/-- Numeric literal normalization on the literal's source text. -/
def parseNumberLit (s : String) : Except ParseError Nat :=
  parseNumberCore s.data

/-! ## Lexical analysis

Modelled from the spec: the grammar file `linkrs.pest` defines the
lexical tokens declaratively; here they are produced by an explicit
tokenizer.  Whitespace and `//`-comments (including `///` doc comments,
which the AST carries no field for) separate tokens; identifiers,
numeric literals (kept as raw text for `parseNumberLit`), string
literals, and the punctuation / operator tokens of the DSL. -/

/-- Lexical token of the DSL. -/
inductive Token
  | ident (s : String)
  | numberTok (s : String)
  | strTok (s : String)
  | lbrace | rbrace | lparen | rparen | lbracket | rbracket
  | colon | semi | comma | pipe | eqTok | dot | star | hashTok
  | plus | minus | slash | percent
  | ltTok | gtTok | leTok | geTok | eqeq | neTok
deriving DecidableEq, Repr

/-- First character of an identifier. -/
def isIdentStart (c : Char) : Bool := c.isAlpha || c = '_'

/-- Subsequent character of an identifier. -/
def isIdentChar (c : Char) : Bool := c.isAlphanum || c = '_'

/-- Character that may continue a numeric literal: digits, hex digits,
the `x` of `0x`, the `K`/`M` suffix and `_` separators. -/
def isNumberChar (c : Char) : Bool := c.isAlphanum || c = '_'

/-- Single-character punctuation tokens. -/
def punctToken (c : Char) : Option Token :=
  if c = '{' then some Token.lbrace
  else if c = '}' then some Token.rbrace
  else if c = '(' then some Token.lparen
  else if c = ')' then some Token.rparen
  else if c = '[' then some Token.lbracket
  else if c = ']' then some Token.rbracket
  else if c = ':' then some Token.colon
  else if c = ';' then some Token.semi
  else if c = ',' then some Token.comma
  else if c = '|' then some Token.pipe
  else if c = '.' then some Token.dot
  else if c = '*' then some Token.star
  else if c = '#' then some Token.hashTok
  else if c = '+' then some Token.plus
  else if c = '-' then some Token.minus
  else if c = '%' then some Token.percent
  else none

/-- Fueled tokenizer loop; each step consumes at least one character, so
fuel `length + 1` always suffices. -/
def tokenizeAux (fuel : Nat) (pos : Nat) (cs : List Char) :
    Except ParseError (List Token) :=
  match fuel, cs with
  | _, [] => Except.ok []
  | 0, _ => Except.error (ParseError.structural "tokenizer fuel exhausted")
  | fuel + 1, c :: rest =>
    if c = ' ' ∨ c = '\n' ∨ c = '\t' ∨ c = '\r' then
      tokenizeAux fuel (pos + 1) rest
    else if c = '/' then
      match rest with
      | '/' :: rest2 =>
        let (skipped, rest3) := rest2.span (fun ch => ch ≠ '\n')
        tokenizeAux fuel (pos + 2 + skipped.length) rest3
      | _ =>
        (tokenizeAux fuel (pos + 1) rest).map (fun ts => Token.slash :: ts)
    else if isIdentStart c then
      let (tail, rest2) := rest.span isIdentChar
      (tokenizeAux fuel (pos + 1 + tail.length) rest2).map
        (fun ts => Token.ident (String.mk (c :: tail)) :: ts)
    else if c.isDigit then
      let (tail, rest2) := rest.span isNumberChar
      (tokenizeAux fuel (pos + 1 + tail.length) rest2).map
        (fun ts => Token.numberTok (String.mk (c :: tail)) :: ts)
    else if c = '"' then
      let (content, rest2) := rest.span (fun ch => ch ≠ '"')
      match rest2 with
      | _ :: rest3 =>
        (tokenizeAux fuel (pos + 2 + content.length) rest3).map
          (fun ts => Token.strTok (String.mk content) :: ts)
      | [] => Except.error (ParseError.syntaxErr pos "unterminated string literal")
    else if c = '<' then
      match rest with
      | '=' :: rest2 => (tokenizeAux fuel (pos + 2) rest2).map (fun ts => Token.leTok :: ts)
      | _ => (tokenizeAux fuel (pos + 1) rest).map (fun ts => Token.ltTok :: ts)
    else if c = '>' then
      match rest with
      | '=' :: rest2 => (tokenizeAux fuel (pos + 2) rest2).map (fun ts => Token.geTok :: ts)
      | _ => (tokenizeAux fuel (pos + 1) rest).map (fun ts => Token.gtTok :: ts)
    else if c = '=' then
      match rest with
      | '=' :: rest2 => (tokenizeAux fuel (pos + 2) rest2).map (fun ts => Token.eqeq :: ts)
      | _ => (tokenizeAux fuel (pos + 1) rest).map (fun ts => Token.eqTok :: ts)
    else if c = '!' then
      match rest with
      | '=' :: rest2 => (tokenizeAux fuel (pos + 2) rest2).map (fun ts => Token.neTok :: ts)
      | _ => Except.error (ParseError.syntaxErr pos "unexpected character")
    else
      match punctToken c with
      | some t => (tokenizeAux fuel (pos + 1) rest).map (fun ts => t :: ts)
      | none => Except.error (ParseError.syntaxErr pos "unexpected character")

/-- Tokenize a whole source text. -/
def tokenize (s : String) : Except ParseError (List Token) :=
  tokenizeAux (s.data.length + 1) 0 s.data

/-! ## Expression parsing

Modelled from the spec: precedence climbing with binding order
(low→high) relational → additive → multiplicative → unary minus →
postfix (member access, call), all tiers left-associative, with primary
terms numeric literals, identifiers, `here()` and `size()`. -/

/-- Relational-tier operator of a token. -/
def relOpOf : Token → Option BinOp
  | Token.ltTok => some BinOp.lt
  | Token.gtTok => some BinOp.gt
  | Token.leTok => some BinOp.le
  | Token.geTok => some BinOp.ge
  | Token.eqeq => some BinOp.eq
  | Token.neTok => some BinOp.ne
  | _ => none

/-- Additive-tier operator of a token. -/
def addOpOf : Token → Option BinOp
  | Token.plus => some BinOp.add
  | Token.minus => some BinOp.sub
  | _ => none

/-- Multiplicative-tier operator of a token. -/
def mulOpOf : Token → Option BinOp
  | Token.star => some BinOp.mul
  | Token.slash => some BinOp.div
  | Token.percent => some BinOp.mod
  | _ => none

mutual

/-- Relational tier (lowest binding): `add (relop add)*`, left-associative. -/
def parseRelExpr (fuel : Nat) (ts : List Token) :
    Except ParseError (Expr × List Token) :=
  match fuel with
  | 0 => Except.error (ParseError.structural "expression fuel exhausted")
  | fuel + 1 => do
    let (lhs, ts2) ← parseAddExpr fuel ts
    parseRelTail fuel lhs ts2

/-- Left-associative loop of the relational tier. -/
def parseRelTail (fuel : Nat) (lhs : Expr) (ts : List Token) :
    Except ParseError (Expr × List Token) :=
  match fuel with
  | 0 => Except.error (ParseError.structural "expression fuel exhausted")
  | fuel + 1 =>
    match ts with
    | t :: rest =>
      match relOpOf t with
      | some op => do
        let (rhs, ts2) ← parseAddExpr fuel rest
        parseRelTail fuel (Expr.binOp lhs op rhs) ts2
      | none => Except.ok (lhs, ts)
    | [] => Except.ok (lhs, [])

/-- Additive tier: `mul (addop mul)*`, left-associative. -/
def parseAddExpr (fuel : Nat) (ts : List Token) :
    Except ParseError (Expr × List Token) :=
  match fuel with
  | 0 => Except.error (ParseError.structural "expression fuel exhausted")
  | fuel + 1 => do
    let (lhs, ts2) ← parseMulExpr fuel ts
    parseAddTail fuel lhs ts2

/-- Left-associative loop of the additive tier. -/
def parseAddTail (fuel : Nat) (lhs : Expr) (ts : List Token) :
    Except ParseError (Expr × List Token) :=
  match fuel with
  | 0 => Except.error (ParseError.structural "expression fuel exhausted")
  | fuel + 1 =>
    match ts with
    | t :: rest =>
      match addOpOf t with
      | some op => do
        let (rhs, ts2) ← parseMulExpr fuel rest
        parseAddTail fuel (Expr.binOp lhs op rhs) ts2
      | none => Except.ok (lhs, ts)
    | [] => Except.ok (lhs, [])

/-- Multiplicative tier: `unary (mulop unary)*`, left-associative. -/
def parseMulExpr (fuel : Nat) (ts : List Token) :
    Except ParseError (Expr × List Token) :=
  match fuel with
  | 0 => Except.error (ParseError.structural "expression fuel exhausted")
  | fuel + 1 => do
    let (lhs, ts2) ← parseUnaryExpr fuel ts
    parseMulTail fuel lhs ts2

/-- Left-associative loop of the multiplicative tier. -/
def parseMulTail (fuel : Nat) (lhs : Expr) (ts : List Token) :
    Except ParseError (Expr × List Token) :=
  match fuel with
  | 0 => Except.error (ParseError.structural "expression fuel exhausted")
  | fuel + 1 =>
    match ts with
    | t :: rest =>
      match mulOpOf t with
      | some op => do
        let (rhs, ts2) ← parseUnaryExpr fuel rest
        parseMulTail fuel (Expr.binOp lhs op rhs) ts2
      | none => Except.ok (lhs, ts)
    | [] => Except.ok (lhs, [])

/-- Unary-minus tier, binding tighter than the multiplicative tier. -/
def parseUnaryExpr (fuel : Nat) (ts : List Token) :
    Except ParseError (Expr × List Token) :=
  match fuel with
  | 0 => Except.error (ParseError.structural "expression fuel exhausted")
  | fuel + 1 =>
    match ts with
    | Token.minus :: rest =>
      (parseUnaryExpr fuel rest).map (fun r => (Expr.unaryMinus r.1, r.2))
    | _ => parsePostExpr fuel ts

/-- Postfix tier (tightest operators): a primary followed by any number
of member accesses and calls. -/
def parsePostExpr (fuel : Nat) (ts : List Token) :
    Except ParseError (Expr × List Token) :=
  match fuel with
  | 0 => Except.error (ParseError.structural "expression fuel exhausted")
  | fuel + 1 => do
    let (e, ts2) ← parsePrimaryExpr fuel ts
    parsePostTail fuel e ts2

/-- Left-associative loop of the postfix tier. -/
def parsePostTail (fuel : Nat) (e : Expr) (ts : List Token) :
    Except ParseError (Expr × List Token) :=
  match fuel with
  | 0 => Except.error (ParseError.structural "expression fuel exhausted")
  | fuel + 1 =>
    match ts with
    | Token.dot :: Token.ident f :: rest => parsePostTail fuel (Expr.member e f) rest
    | Token.lparen :: Token.rparen :: rest => parsePostTail fuel (Expr.call e []) rest
    | Token.lparen :: rest => do
      let (args, ts2) ← parseArgsTail fuel rest
      parsePostTail fuel (Expr.call e args) ts2
    | _ => Except.ok (e, ts)

/-- Comma-separated call arguments up to the closing parenthesis. -/
def parseArgsTail (fuel : Nat) (ts : List Token) :
    Except ParseError (List Expr × List Token) :=
  match fuel with
  | 0 => Except.error (ParseError.structural "expression fuel exhausted")
  | fuel + 1 => do
    let (e, ts2) ← parseRelExpr fuel ts
    match ts2 with
    | Token.comma :: rest => do
      let (more, ts3) ← parseArgsTail fuel rest
      Except.ok (e :: more, ts3)
    | Token.rparen :: rest => Except.ok ([e], rest)
    | other =>
      Except.error (ParseError.syntaxErr other.length "expected comma or closing parenthesis")

/-- Primary terms: numeric literal, identifier, `here()`, `size()`. -/
def parsePrimaryExpr (fuel : Nat) (ts : List Token) :
    Except ParseError (Expr × List Token) :=
  match fuel with
  | 0 => Except.error (ParseError.structural "expression fuel exhausted")
  | _ + 1 =>
    match ts with
    | Token.numberTok s :: rest =>
      match parseNumberLit s with
      | Except.ok n => Except.ok (Expr.number n, rest)
      | Except.error e => Except.error e
    | Token.ident "here" :: Token.lparen :: Token.rparen :: rest =>
      Except.ok (Expr.here, rest)
    | Token.ident "size" :: Token.lparen :: Token.rparen :: rest =>
      Except.ok (Expr.size, rest)
    | Token.ident s :: rest => Except.ok (Expr.ident s, rest)
    | other => Except.error (ParseError.syntaxErr other.length "expected primary expression")

end

/-- Fuel that always suffices for an expression over `n` tokens: each
descent through the six tiers consumes six units before a token must be
consumed. -/
def exprFuel (n : Nat) : Nat := 8 * n + 8

/-- Parse a complete source text as one expression (all tokens must be
consumed: parsing is all-or-nothing). -/
def parseExprText (s : String) : Except ParseError Expr := do
  let ts ← tokenize s
  let (e, rest) ← parseRelExpr (exprFuel ts.length) ts
  match rest with
  | [] => Except.ok e
  | other => Except.error (ParseError.syntaxErr other.length "unexpected trailing tokens")

/-! ## Permission flag lists

Modelled from the spec: permission lists are `|`-joined flag
identifiers (`Read`, `Write`, `Execute`) in any order, duplicates
tolerated; the builder starts from the all-false default and sets the
named flags. -/

/-- Set the flag named by one identifier. -/
def applyFlag (p : Permissions) (flag : String) : Permissions :=
  if flag = "Read" then { p with read := true }
  else if flag = "Write" then { p with write := true }
  else if flag = "Execute" then { p with execute := true }
  else p

/-- Fold a flag list onto the all-false default `Permissions`. -/
def buildPermissions (flags : List String) : Permissions :=
  flags.foldl applyFlag Permissions.default

/-- The three valid permission flag identifiers. -/
def validFlag (s : String) : Bool :=
  s = "Read" || s = "Write" || s = "Execute"

/-- Parse a `|`-joined flag identifier list from the token stream. -/
def parsePermFlags (fuel : Nat) (ts : List Token) :
    Except ParseError (List String × List Token) :=
  match fuel with
  | 0 => Except.error (ParseError.structural "fuel exhausted")
  | fuel + 1 =>
    match ts with
    | Token.ident s :: rest =>
      if validFlag s then
        match rest with
        | Token.pipe :: rest2 =>
          (parsePermFlags fuel rest2).map (fun r => (s :: r.1, r.2))
        | _ => Except.ok ([s], rest)
      else Except.error (ParseError.syntaxErr ts.length "expected permission flag")
    | other => Except.error (ParseError.syntaxErr other.length "expected permission flag")

/-- Parse a whole source text as one permission flag list. -/
def parsePermissionsText (s : String) : Except ParseError Permissions := do
  let ts ← tokenize s
  let (flags, rest) ← parsePermFlags (ts.length + 1) ts
  match rest with
  | [] => Except.ok (buildPermissions flags)
  | other => Except.error (ParseError.syntaxErr other.length "unexpected trailing tokens")

/-! ## Glob patterns, input statements, location expressions

Modelled from the spec: an `input(...)`/`keep(...)` statement carries
one or more section-name glob patterns (order preserved); a glob
pattern is a run of identifier pieces, dots and `*` wildcards.  A
location expression is `here()`, `physical()` or `virtual()`; absence
of an accessor means the current location. -/

/-- Text contributed by one token inside a glob pattern. -/
def patTokText : Token → Option String
  | Token.dot => some "."
  | Token.star => some "*"
  | Token.ident s => some s
  | Token.numberTok s => some s
  | _ => none

/-- Greedy run of pattern tokens, concatenated to the glob text. -/
def parsePatTail : List Token → String × List Token
  | [] => ("", [])
  | t :: rest =>
    match patTokText t with
    | some piece =>
      let (more, rest2) := parsePatTail rest
      (piece ++ more, rest2)
    | none => ("", t :: rest)

/-- Parse one non-empty glob pattern. -/
def parsePattern (ts : List Token) : Except ParseError (String × List Token) :=
  match ts with
  | t :: rest =>
    match patTokText t with
    | some piece =>
      let (more, rest2) := parsePatTail rest
      Except.ok (piece ++ more, rest2)
    | none => Except.error (ParseError.syntaxErr ts.length "expected glob pattern")
  | [] => Except.error (ParseError.syntaxErr 0 "expected glob pattern")

/-- Comma-separated glob patterns up to the closing parenthesis. -/
def parsePatternList (fuel : Nat) (ts : List Token) :
    Except ParseError (List String × List Token) :=
  match fuel with
  | 0 => Except.error (ParseError.structural "fuel exhausted")
  | fuel + 1 => do
    let (p, ts2) ← parsePattern ts
    match ts2 with
    | Token.comma :: rest =>
      (parsePatternList fuel rest).map (fun r => (p :: r.1, r.2))
    | Token.rparen :: rest => Except.ok ([p], rest)
    | other =>
      Except.error (ParseError.syntaxErr other.length "expected comma or closing parenthesis")

/-- Parse the parenthesised argument list of `input(...)`, already past
the opening parenthesis. -/
def parseInputArgs (fuel : Nat) (ts : List Token) :
    Except ParseError (InputStmt × List Token) :=
  (parsePatternList fuel ts).map
    (fun r => ({ from_ := none, patterns := r.1, sort_by := none }, r.2))

/-- Parse a location expression: `here()`, `physical()` or `virtual()`. -/
def parseLocation (ts : List Token) :
    Except ParseError (LocationExpr × List Token) :=
  match ts with
  | Token.ident "here" :: Token.lparen :: Token.rparen :: rest =>
    Except.ok ({ accessor := none }, rest)
  | Token.ident "physical" :: Token.lparen :: Token.rparen :: rest =>
    Except.ok ({ accessor := some LocationAccessor.physical }, rest)
  | Token.ident "virtual" :: Token.lparen :: Token.rparen :: rest =>
    Except.ok ({ accessor := some LocationAccessor.virtualAcc }, rest)
  | other => Except.error (ParseError.syntaxErr other.length "expected location expression")

/-! ## Cfg predicates

Modelled from the spec: nested `all(...)`/`any(...)`/`not(...)`
predicates build a boolean tree of `CfgPredicate`, preserving argument
order for `all`/`any`; the leaf form is `feature = "name"`. -/

mutual

/-- Parse one cfg predicate. -/
def parseCfgPred (fuel : Nat) (ts : List Token) :
    Except ParseError (CfgPredicate × List Token) :=
  match fuel with
  | 0 => Except.error (ParseError.structural "fuel exhausted")
  | fuel + 1 =>
    match ts with
    | Token.ident "feature" :: Token.eqTok :: Token.strTok s :: rest =>
      Except.ok (CfgPredicate.feature s, rest)
    | Token.ident "not" :: Token.lparen :: rest => do
      let (p, ts2) ← parseCfgPred fuel rest
      match ts2 with
      | Token.rparen :: rest2 => Except.ok (CfgPredicate.notP p, rest2)
      | other => Except.error (ParseError.syntaxErr other.length "expected closing parenthesis")
    | Token.ident "all" :: Token.lparen :: rest =>
      (parseCfgPredList fuel rest).map (fun r => (CfgPredicate.allP r.1, r.2))
    | Token.ident "any" :: Token.lparen :: rest =>
      (parseCfgPredList fuel rest).map (fun r => (CfgPredicate.anyP r.1, r.2))
    | other => Except.error (ParseError.syntaxErr other.length "expected cfg predicate")

/-- Comma-separated cfg predicates up to the closing parenthesis,
argument order preserved. -/
def parseCfgPredList (fuel : Nat) (ts : List Token) :
    Except ParseError (List CfgPredicate × List Token) :=
  match fuel with
  | 0 => Except.error (ParseError.structural "fuel exhausted")
  | fuel + 1 => do
    let (p, ts2) ← parseCfgPred fuel ts
    match ts2 with
    | Token.comma :: rest =>
      (parseCfgPredList fuel rest).map (fun r => (p :: r.1, r.2))
    | Token.rparen :: rest => Except.ok ([p], rest)
    | other =>
      Except.error (ParseError.syntaxErr other.length "expected comma or closing parenthesis")

end

/-! ## Contents blocks

Modelled from the spec: a `contents { ... }` block is an ordered list of
content items; a `#[cfg(...)]` attribute attaches to exactly the next
single content item, recursively, producing one `cfg` wrapper per
attribute; `input`/`keep` statements are not `;`-terminated while
`align_to`/`advance_by`/`fill_padding_with` and symbol definitions are. -/

mutual

/-- Parse one content item, including any `#[cfg(...)]` attribute
wrapping the next item. -/
def parseContentsItem (fuel : Nat) (ts : List Token) :
    Except ParseError (ContentsItem × List Token) :=
  match fuel with
  | 0 => Except.error (ParseError.structural "fuel exhausted")
  | fuel + 1 =>
    match ts with
    | Token.hashTok :: Token.lbracket :: Token.ident "cfg" :: Token.lparen :: rest => do
      let (pred, ts2) ← parseCfgPred fuel rest
      match ts2 with
      | Token.rparen :: Token.rbracket :: rest2 => do
        let (inner, ts3) ← parseContentsItem fuel rest2
        Except.ok (ContentsItem.cfg pred inner, ts3)
      | other => Except.error (ParseError.syntaxErr other.length "expected closing of cfg attribute")
    | Token.ident "input" :: Token.lparen :: rest =>
      (parseInputArgs fuel rest).map (fun r => (ContentsItem.input r.1, r.2))
    | Token.ident "keep" :: Token.lparen :: Token.ident "input" :: Token.lparen :: rest => do
      let (stmt, ts2) ← parseInputArgs fuel rest
      match ts2 with
      | Token.rparen :: rest2 => Except.ok (ContentsItem.keep stmt, rest2)
      | other => Except.error (ParseError.syntaxErr other.length "expected closing parenthesis")
    | Token.ident "align_to" :: Token.lparen :: rest => do
      let (e, ts2) ← parseRelExpr fuel rest
      match ts2 with
      | Token.rparen :: Token.semi :: rest2 => Except.ok (ContentsItem.alignTo e, rest2)
      | other => Except.error (ParseError.syntaxErr other.length "expected closing of align_to")
    | Token.ident "advance_by" :: Token.lparen :: rest => do
      let (e, ts2) ← parseRelExpr fuel rest
      match ts2 with
      | Token.rparen :: Token.semi :: rest2 => Except.ok (ContentsItem.advanceBy e, rest2)
      | other => Except.error (ParseError.syntaxErr other.length "expected closing of advance_by")
    | Token.ident "fill_padding_with" :: Token.lparen :: rest => do
      let (e, ts2) ← parseRelExpr fuel rest
      match ts2 with
      | Token.rparen :: Token.semi :: rest2 => Except.ok (ContentsItem.fillPaddingWith e, rest2)
      | other => Except.error (ParseError.syntaxErr other.length "expected closing of fill_padding_with")
    | Token.ident "pub" :: Token.ident "symbol" :: Token.ident n :: Token.eqTok :: rest => do
      let (loc, ts2) ← parseLocation rest
      match ts2 with
      | Token.semi :: rest2 =>
        Except.ok (ContentsItem.symbol { public := true, name := n, value := loc }, rest2)
      | other => Except.error (ParseError.syntaxErr other.length "expected semicolon")
    | Token.ident "symbol" :: Token.ident n :: Token.eqTok :: rest => do
      let (loc, ts2) ← parseLocation rest
      match ts2 with
      | Token.semi :: rest2 =>
        Except.ok (ContentsItem.symbol { public := false, name := n, value := loc }, rest2)
      | other => Except.error (ParseError.syntaxErr other.length "expected semicolon")
    | other => Except.error (ParseError.syntaxErr other.length "expected content item")

/-- Parse content items up to the closing brace of the block. -/
def parseContentsList (fuel : Nat) (ts : List Token) :
    Except ParseError (List ContentsItem × List Token) :=
  match fuel with
  | 0 => Except.error (ParseError.structural "fuel exhausted")
  | fuel + 1 =>
    match ts with
    | Token.rbrace :: rest => Except.ok ([], rest)
    | _ => do
      let (item, ts2) ← parseContentsItem fuel ts
      (parseContentsList fuel ts2).map (fun r => (item :: r.1, r.2))

end

/-! ## Section blocks

Modelled from the spec and the repository's tests: a section is
`section <name> { ... }` whose body is a sequence of optional
sub-blocks; single-valued fields are `,`-terminated, brace-valued
sub-blocks are not, and assertion statements are `;`-terminated.  Each
optional field is populated only if present; nothing is defaulted. -/

/-- A section with only a name: every optional field absent, both
statement lists empty. -/
def emptySection (name : String) : Section :=
  { name := name, place_in := none, load_from := none, output_to := none,
    permissions := none, occupies_file_space := none, address := none,
    file_position := none, contents := none, assertions := [], no_cross_refs := [] }

/-- Section (and glob-like) names may start with a dot, as in `.text`. -/
def parseName (ts : List Token) : Except ParseError (String × List Token) :=
  match ts with
  | Token.dot :: Token.ident s :: rest => Except.ok ("." ++ s, rest)
  | Token.ident s :: rest => Except.ok (s, rest)
  | other => Except.error (ParseError.syntaxErr other.length "expected name")

/-- Comma-separated identifiers up to the closing parenthesis. -/
def parseIdentList (fuel : Nat) (ts : List Token) :
    Except ParseError (List String × List Token) :=
  match fuel with
  | 0 => Except.error (ParseError.structural "fuel exhausted")
  | fuel + 1 =>
    match ts with
    | Token.ident s :: Token.comma :: rest =>
      (parseIdentList fuel rest).map (fun r => (s :: r.1, r.2))
    | Token.ident s :: Token.rparen :: rest => Except.ok ([s], rest)
    | other => Except.error (ParseError.syntaxErr other.length "expected identifier list")

/-- Parse the body of an `address { ... }` block, populating only the
fields that occur. -/
def parseAddressBody (fuel : Nat) (acc : AddressBlock) (ts : List Token) :
    Except ParseError (AddressBlock × List Token) :=
  match fuel with
  | 0 => Except.error (ParseError.structural "fuel exhausted")
  | fuel + 1 =>
    match ts with
    | Token.rbrace :: rest => Except.ok (acc, rest)
    | Token.ident "start" :: Token.colon :: rest => do
      let (e, ts2) ← parseRelExpr fuel rest
      match ts2 with
      | Token.comma :: rest2 => parseAddressBody fuel { acc with start := some e } rest2
      | other => Except.error (ParseError.syntaxErr other.length "expected comma")
    | Token.ident "size" :: Token.colon :: rest => do
      let (e, ts2) ← parseRelExpr fuel rest
      match ts2 with
      | Token.comma :: rest2 => parseAddressBody fuel { acc with size := some e } rest2
      | other => Except.error (ParseError.syntaxErr other.length "expected comma")
    | Token.ident "alignment" :: Token.colon :: rest => do
      let (e, ts2) ← parseRelExpr fuel rest
      match ts2 with
      | Token.comma :: rest2 => parseAddressBody fuel { acc with alignment := some e } rest2
      | other => Except.error (ParseError.syntaxErr other.length "expected comma")
    | Token.ident "virtual_base" :: Token.colon :: rest => do
      let (e, ts2) ← parseRelExpr fuel rest
      match ts2 with
      | Token.comma :: rest2 => parseAddressBody fuel { acc with virtual_base := some e } rest2
      | other => Except.error (ParseError.syntaxErr other.length "expected comma")
    | Token.ident "follows" :: Token.colon :: Token.ident v :: Token.comma :: rest =>
      parseAddressBody fuel { acc with follows := some v } rest
    | Token.ident "region" :: Token.colon :: Token.ident v :: Token.comma :: rest =>
      parseAddressBody fuel { acc with region := some v } rest
    | Token.ident "load_from_region" :: Token.colon :: Token.ident v :: Token.comma :: rest =>
      parseAddressBody fuel { acc with load_from_region := some v } rest
    | other => Except.error (ParseError.syntaxErr other.length "expected address block field")

/-- The empty address block: all seven fields absent. -/
def emptyAddressBlock : AddressBlock :=
  { start := none, size := none, alignment := none, follows := none,
    virtual_base := none, region := none, load_from_region := none }

/-- Parse the body of a `section`, one optional sub-block at a time,
until the closing brace.  Fields are set only when their statement
occurs; assertion statements accumulate in order. -/
def parseSectionBody (fuel : Nat) (acc : Section) (ts : List Token) :
    Except ParseError (Section × List Token) :=
  match fuel with
  | 0 => Except.error (ParseError.structural "fuel exhausted")
  | fuel + 1 =>
    match ts with
    | Token.rbrace :: rest => Except.ok (acc, rest)
    | Token.ident "place_in" :: Token.colon :: Token.ident v :: Token.comma :: rest =>
      parseSectionBody fuel { acc with place_in := some v } rest
    | Token.ident "load_from" :: Token.colon :: Token.ident v :: Token.comma :: rest =>
      parseSectionBody fuel { acc with load_from := some v } rest
    | Token.ident "output_to" :: Token.colon :: Token.ident "segment" :: Token.lparen ::
        Token.ident v :: Token.rparen :: Token.comma :: rest =>
      parseSectionBody fuel { acc with output_to := some v } rest
    | Token.ident "permissions" :: Token.colon :: rest => do
      let (flags, ts2) ← parsePermFlags fuel rest
      match ts2 with
      | Token.comma :: rest2 =>
        parseSectionBody fuel { acc with permissions := some (buildPermissions flags) } rest2
      | other => Except.error (ParseError.syntaxErr other.length "expected comma")
    | Token.ident "occupies_file_space" :: Token.colon :: Token.ident b :: Token.comma :: rest =>
      if b = "true" then
        parseSectionBody fuel { acc with occupies_file_space := some true } rest
      else if b = "false" then
        parseSectionBody fuel { acc with occupies_file_space := some false } rest
      else Except.error (ParseError.syntaxErr (rest.length + 2) "expected boolean")
    | Token.ident "address" :: Token.lbrace :: rest => do
      let (ab, ts2) ← parseAddressBody fuel emptyAddressBlock rest
      parseSectionBody fuel { acc with address := some ab } ts2
    | Token.ident "file_position" :: Token.colon :: Token.ident "origin" :: Token.comma :: rest =>
      parseSectionBody fuel
        { acc with file_position := some { start := FilePositionStart.origin } } rest
    | Token.ident "file_position" :: Token.colon :: rest => do
      let (e, ts2) ← parseRelExpr fuel rest
      match ts2 with
      | Token.comma :: rest2 =>
        parseSectionBody fuel
          { acc with file_position := some { start := FilePositionStart.expr e } } rest2
      | other => Except.error (ParseError.syntaxErr other.length "expected comma")
    | Token.ident "contents" :: Token.lbrace :: rest => do
      let (items, ts2) ← parseContentsList fuel rest
      parseSectionBody fuel { acc with contents := some { items := items } } ts2
    | Token.ident "assert" :: Token.lparen :: rest => do
      let (e, ts2) ← parseRelExpr fuel rest
      match ts2 with
      | Token.comma :: Token.strTok msg :: Token.rparen :: Token.semi :: rest2 =>
        parseSectionBody fuel
          { acc with assertions := acc.assertions ++ [{ condition := e, message := msg }] } rest2
      | other => Except.error (ParseError.syntaxErr other.length "expected assertion message")
    | Token.ident "assert_no_cross_references_to" :: Token.lparen :: rest => do
      let (names, ts2) ← parseIdentList fuel rest
      match ts2 with
      | Token.semi :: rest2 =>
        parseSectionBody fuel { acc with no_cross_refs := acc.no_cross_refs ++ names } rest2
      | other => Except.error (ParseError.syntaxErr other.length "expected semicolon")
    | other => Except.error (ParseError.syntaxErr other.length "expected section sub-block")

/-- Parse a whole `section <name> { ... }` block. -/
def parseSection (fuel : Nat) (ts : List Token) :
    Except ParseError (Section × List Token) :=
  match ts with
  | Token.ident "section" :: rest => do
    let (name, ts2) ← parseName rest
    match ts2 with
    | Token.lbrace :: rest2 => parseSectionBody fuel (emptySection name) rest2
    | other => Except.error (ParseError.syntaxErr other.length "expected opening brace")
  | other => Except.error (ParseError.syntaxErr other.length "expected section keyword")

/-! ## Memory maps, ELF segments, discard, provide_symbols, const

Modelled from the spec and the repository's tests.  Region and segment
fields are `,`-terminated; a region requires `permissions`, `start` and
`size`, a segment requires `type` and `permissions` — a missing
required child is a `StructuralError` (builder-level), not a
`SyntaxError`. -/

/-- Partially assembled region body. -/
structure RegionAcc where
  permissions : Option Permissions
  start : Option Expr
  size : Option Expr

/-- Parse the body of a `region <name> { ... }` block and require all
three fields at the closing brace. -/
def parseRegionBody (fuel : Nat) (name : String) (acc : RegionAcc) (ts : List Token) :
    Except ParseError (Region × List Token) :=
  match fuel with
  | 0 => Except.error (ParseError.structural "fuel exhausted")
  | fuel + 1 =>
    match ts with
    | Token.rbrace :: rest =>
      match acc.permissions, acc.start, acc.size with
      | some p, some st, some sz =>
        Except.ok ({ name := name, permissions := p, start := st, size := sz }, rest)
      | _, _, _ =>
        Except.error (ParseError.structural "missing required child in region")
    | Token.ident "permissions" :: Token.colon :: rest => do
      let (flags, ts2) ← parsePermFlags fuel rest
      match ts2 with
      | Token.comma :: rest2 =>
        parseRegionBody fuel name { acc with permissions := some (buildPermissions flags) } rest2
      | other => Except.error (ParseError.syntaxErr other.length "expected comma")
    | Token.ident "start" :: Token.colon :: rest => do
      let (e, ts2) ← parseRelExpr fuel rest
      match ts2 with
      | Token.comma :: rest2 => parseRegionBody fuel name { acc with start := some e } rest2
      | other => Except.error (ParseError.syntaxErr other.length "expected comma")
    | Token.ident "size" :: Token.colon :: rest => do
      let (e, ts2) ← parseRelExpr fuel rest
      match ts2 with
      | Token.comma :: rest2 => parseRegionBody fuel name { acc with size := some e } rest2
      | other => Except.error (ParseError.syntaxErr other.length "expected comma")
    | other => Except.error (ParseError.syntaxErr other.length "expected region field")

/-- Parse `region <name> { ... }` entries up to the closing brace of the
memory map. -/
def parseRegionList (fuel : Nat) (ts : List Token) :
    Except ParseError (List Region × List Token) :=
  match fuel with
  | 0 => Except.error (ParseError.structural "fuel exhausted")
  | fuel + 1 =>
    match ts with
    | Token.rbrace :: rest => Except.ok ([], rest)
    | Token.ident "region" :: Token.ident name :: Token.lbrace :: rest => do
      let (r, ts2) ← parseRegionBody fuel name ⟨none, none, none⟩ rest
      (parseRegionList fuel ts2).map (fun res => (r :: res.1, res.2))
    | other => Except.error (ParseError.syntaxErr other.length "expected region")

/-- Parse a whole `memory_map { ... }` block. -/
def parseMemoryMap (fuel : Nat) (ts : List Token) :
    Except ParseError (MemoryMap × List Token) :=
  match ts with
  | Token.ident "memory_map" :: Token.lbrace :: rest =>
    (parseRegionList fuel rest).map (fun r => ({ regions := r.1 }, r.2))
  | other => Except.error (ParseError.syntaxErr other.length "expected memory_map")

/-- Segment type from its identifier (closed enumeration of 7 kinds). -/
def segmentTypeOf (s : String) : Option SegmentType :=
  if s = "Load" then some SegmentType.load
  else if s = "Dynamic" then some SegmentType.dynamic
  else if s = "Interp" then some SegmentType.interp
  else if s = "Note" then some SegmentType.note
  else if s = "Phdr" then some SegmentType.phdr
  else if s = "Tls" then some SegmentType.tls
  else if s = "Null" then some SegmentType.null
  else none

/-- Partially assembled segment body. -/
structure SegmentAcc where
  segment_type : Option SegmentType
  permissions : Option Permissions

/-- Parse the body of a `segment <name> { ... }` block and require both
fields at the closing brace. -/
def parseSegmentBody (fuel : Nat) (name : String) (acc : SegmentAcc) (ts : List Token) :
    Except ParseError (Segment × List Token) :=
  match fuel with
  | 0 => Except.error (ParseError.structural "fuel exhausted")
  | fuel + 1 =>
    match ts with
    | Token.rbrace :: rest =>
      match acc.segment_type, acc.permissions with
      | some t, some p =>
        Except.ok ({ name := name, segment_type := t, permissions := p }, rest)
      | _, _ => Except.error (ParseError.structural "missing required child in segment")
    | Token.ident "type" :: Token.colon :: Token.ident tname :: Token.comma :: rest =>
      match segmentTypeOf tname with
      | some t => parseSegmentBody fuel name { acc with segment_type := some t } rest
      | none => Except.error (ParseError.syntaxErr (rest.length + 2) "expected segment type")
    | Token.ident "permissions" :: Token.colon :: rest => do
      let (flags, ts2) ← parsePermFlags fuel rest
      match ts2 with
      | Token.comma :: rest2 =>
        parseSegmentBody fuel name { acc with permissions := some (buildPermissions flags) } rest2
      | other => Except.error (ParseError.syntaxErr other.length "expected comma")
    | other => Except.error (ParseError.syntaxErr other.length "expected segment field")

/-- Parse `segment <name> { ... }` entries up to the closing brace. -/
def parseSegmentList (fuel : Nat) (ts : List Token) :
    Except ParseError (List Segment × List Token) :=
  match fuel with
  | 0 => Except.error (ParseError.structural "fuel exhausted")
  | fuel + 1 =>
    match ts with
    | Token.rbrace :: rest => Except.ok ([], rest)
    | Token.ident "segment" :: Token.ident name :: Token.lbrace :: rest => do
      let (s, ts2) ← parseSegmentBody fuel name ⟨none, none⟩ rest
      (parseSegmentList fuel ts2).map (fun res => (s :: res.1, res.2))
    | other => Except.error (ParseError.syntaxErr other.length "expected segment")

/-- Parse a whole `elf_segments { ... }` block. -/
def parseElfSegments (fuel : Nat) (ts : List Token) :
    Except ParseError (ElfSegments × List Token) :=
  match ts with
  | Token.ident "elf_segments" :: Token.lbrace :: rest =>
    (parseSegmentList fuel rest).map (fun r => ({ segments := r.1 }, r.2))
  | other => Except.error (ParseError.syntaxErr other.length "expected elf_segments")

/-- Parse `input(...)` statements up to the closing brace of a
`discard { ... }` block. -/
def parseDiscardList (fuel : Nat) (ts : List Token) :
    Except ParseError (List InputStmt × List Token) :=
  match fuel with
  | 0 => Except.error (ParseError.structural "fuel exhausted")
  | fuel + 1 =>
    match ts with
    | Token.rbrace :: rest => Except.ok ([], rest)
    | Token.ident "input" :: Token.lparen :: rest => do
      let (stmt, ts2) ← parseInputArgs fuel rest
      (parseDiscardList fuel ts2).map (fun r => (stmt :: r.1, r.2))
    | other => Except.error (ParseError.syntaxErr other.length "expected input statement")

/-- Parse a whole `discard { ... }` block. -/
def parseDiscard (fuel : Nat) (ts : List Token) :
    Except ParseError (Discard × List Token) :=
  match ts with
  | Token.ident "discard" :: Token.lbrace :: rest =>
    (parseDiscardList fuel rest).map (fun r => ({ patterns := r.1 }, r.2))
  | other => Except.error (ParseError.syntaxErr other.length "expected discard")

/-- Parse `<name> = <name>,` aliasing pairs up to the closing brace. -/
def parseProvideList (fuel : Nat) (ts : List Token) :
    Except ParseError (List (String × String) × List Token) :=
  match fuel with
  | 0 => Except.error (ParseError.structural "fuel exhausted")
  | fuel + 1 =>
    match ts with
    | Token.rbrace :: rest => Except.ok ([], rest)
    | Token.ident a :: Token.eqTok :: Token.ident b :: Token.comma :: rest =>
      (parseProvideList fuel rest).map (fun r => ((a, b) :: r.1, r.2))
    | other => Except.error (ParseError.syntaxErr other.length "expected symbol alias pair")

/-- Parse a whole `provide_symbols { ... }` block. -/
def parseProvideSymbols (fuel : Nat) (ts : List Token) :
    Except ParseError (ProvideSymbols × List Token) :=
  match ts with
  | Token.ident "provide_symbols" :: Token.lbrace :: rest =>
    (parseProvideList fuel rest).map (fun r => ({ symbols := r.1 }, r.2))
  | other => Except.error (ParseError.syntaxErr other.length "expected provide_symbols")

/-- Parse a `const` declaration after the optional `pub` marker. -/
def parseConstAfterPub (fuel : Nat) (pub : Bool) (ts : List Token) :
    Except ParseError (ConstDecl × List Token) :=
  match ts with
  | Token.ident "const" :: Token.ident name :: rest => do
    let (ann, ts2) : Option String × List Token :=
      match rest with
      | Token.colon :: Token.ident ty :: rest2 => (some ty, rest2)
      | _ => (none, rest)
    match ts2 with
    | Token.eqTok :: rest2 => do
      let (e, ts3) ← parseRelExpr fuel rest2
      match ts3 with
      | Token.semi :: rest3 =>
        Except.ok ({ public := pub, name := name, type_ann := ann, value := e }, rest3)
      | other => Except.error (ParseError.syntaxErr other.length "expected semicolon")
    | other => Except.error (ParseError.syntaxErr other.length "expected equals sign")
  | other => Except.error (ParseError.syntaxErr other.length "expected const declaration")

/-- Parse a `const` or `pub const` declaration. -/
def parseConstDecl (fuel : Nat) (ts : List Token) :
    Except ParseError (ConstDecl × List Token) :=
  match ts with
  | Token.ident "pub" :: rest => parseConstAfterPub fuel true rest
  | _ => parseConstAfterPub fuel false ts

/-- Parse one top-level item, dispatching on its leading keyword. -/
def parseItem (fuel : Nat) (ts : List Token) :
    Except ParseError (Item × List Token) :=
  match ts with
  | Token.ident "memory_map" :: _ =>
    (parseMemoryMap fuel ts).map (fun r => (Item.memoryMap r.1, r.2))
  | Token.ident "elf_segments" :: _ =>
    (parseElfSegments fuel ts).map (fun r => (Item.elfSegments r.1, r.2))
  | Token.ident "section" :: _ =>
    (parseSection fuel ts).map (fun r => (Item.section r.1, r.2))
  | Token.ident "discard" :: _ =>
    (parseDiscard fuel ts).map (fun r => (Item.discard r.1, r.2))
  | Token.ident "provide_symbols" :: _ =>
    (parseProvideSymbols fuel ts).map (fun r => (Item.provideSymbols r.1, r.2))
  | Token.ident "const" :: _ =>
    (parseConstDecl fuel ts).map (fun r => (Item.constItem r.1, r.2))
  | Token.ident "pub" :: _ =>
    (parseConstDecl fuel ts).map (fun r => (Item.constItem r.1, r.2))
  | other => Except.error (ParseError.syntaxErr other.length "expected top-level item")

/-- Parse top-level items until the token stream is exhausted. -/
def parseItemList (fuel : Nat) (ts : List Token) :
    Except ParseError (List Item) :=
  match fuel with
  | 0 => Except.error (ParseError.structural "fuel exhausted")
  | fuel + 1 =>
    match ts with
    | [] => Except.ok []
    | _ => do
      let (item, ts2) ← parseItem fuel ts
      (parseItemList fuel ts2).map (fun items => item :: items)

/-! ## Start rules

Modelled from the spec: the grammar supports being entered at multiple
distinct start rules (the whole file or any individual block type); a
parse consumes the entire input or fails — no partial result is ever
returned. -/

/-- Grammar start rule selector (`Rule::file`, `Rule::memory_map`, ...). -/
inductive StartRule
  | file | memoryMapRule | elfSegmentsRule | sectionRule | discardRule
  | provideSymbolsRule | constDeclRule | contentsRule | exprRule
deriving DecidableEq, Repr

/-- Root AST node of a parse, per start rule. -/
inductive ParsedNode
  | fileNode (items : List Item)
  | memoryMapNode (m : MemoryMap)
  | elfSegmentsNode (e : ElfSegments)
  | sectionNode (s : Section)
  | discardNode (d : Discard)
  | provideSymbolsNode (p : ProvideSymbols)
  | constDeclNode (c : ConstDecl)
  | contentsNode (c : Contents)
  | exprNode (e : Expr)
deriving Repr

/-- Fuel that always suffices for a statement-level parse over `n`
tokens. -/
def parseFuel (n : Nat) : Nat := 16 * n + 16

/-- Require that the whole token stream was consumed. -/
def requireEnd {α : Type} (pair : α × List Token) : Except ParseError α :=
  match pair.2 with
  | [] => Except.ok pair.1
  | other => Except.error (ParseError.syntaxErr other.length "unexpected trailing tokens")

/-- Parse a source text from the given start rule.  All-or-nothing: the
result is either the root AST node with every token consumed, or a
structured error. -/
def parseAt (rule : StartRule) (s : String) : Except ParseError ParsedNode := do
  let ts ← tokenize s
  let fuel := parseFuel ts.length
  match rule with
  | StartRule.file => (parseItemList fuel ts).map ParsedNode.fileNode
  | StartRule.memoryMapRule =>
    (parseMemoryMap fuel ts).bind (fun r => (requireEnd r).map ParsedNode.memoryMapNode)
  | StartRule.elfSegmentsRule =>
    (parseElfSegments fuel ts).bind (fun r => (requireEnd r).map ParsedNode.elfSegmentsNode)
  | StartRule.sectionRule =>
    (parseSection fuel ts).bind (fun r => (requireEnd r).map ParsedNode.sectionNode)
  | StartRule.discardRule =>
    (parseDiscard fuel ts).bind (fun r => (requireEnd r).map ParsedNode.discardNode)
  | StartRule.provideSymbolsRule =>
    (parseProvideSymbols fuel ts).bind (fun r => (requireEnd r).map ParsedNode.provideSymbolsNode)
  | StartRule.constDeclRule =>
    (parseConstDecl fuel ts).bind (fun r => (requireEnd r).map ParsedNode.constDeclNode)
  | StartRule.contentsRule =>
    match ts with
    | Token.ident "contents" :: Token.lbrace :: rest =>
      (parseContentsList fuel rest).bind
        (fun r => (requireEnd r).map (fun items => ParsedNode.contentsNode { items := items }))
    | other => Except.error (ParseError.syntaxErr other.length "expected contents block")
  | StartRule.exprRule =>
    (parseRelExpr fuel ts).bind (fun r => (requireEnd r).map ParsedNode.exprNode)

/-- Whether a flag identifier occurs in a flag list. -/
def flagListHas (flags : List String) (f : String) : Bool :=
  match flags with
  | [] => false
  | s :: rest => if s = f then true else flagListHas rest f

/-- Number of optional sub-blocks present in a parsed section: one per
populated `Option` field, one if any assertion statement occurred, one
if any `assert_no_cross_references_to` statement occurred. -/
def countPresentSubBlocks (s : Section) : Nat :=
  s.place_in.isSome.toNat + s.load_from.isSome.toNat + s.output_to.isSome.toNat +
  s.permissions.isSome.toNat + s.occupies_file_space.isSome.toNat +
  s.address.isSome.toNat + s.file_position.isSome.toNat + s.contents.isSome.toNat +
  (!s.assertions.isEmpty).toNat + (!s.no_cross_refs.isEmpty).toNat

/-! ## Source-text inputs used by the theorems

Braces in the DSL texts are written with hexadecimal escapes. -/

/-- The whole-file input of the repository's `test_parse_full_embedded`
test: one memory map with two regions, one ELF segments block with two
segments, one section with contents, one discard block. -/
def fullFileSrc : String :=
  "\n/// Define the physical memory regions available on this target\nmemory_map \x7b\n    region FLASH \x7b\n        permissions: Read | Execute,\n        start: 0x0800_0000,\n        size: 256K,\n    \x7d\n\n    region RAM \x7b\n        permissions: Read | Write | Execute,\n        start: 0x2000_0000,\n        size: 64K,\n    \x7d\n\x7d\n\n/// ELF program headers\nelf_segments \x7b\n    segment flash \x7b\n        type: Load,\n        permissions: Read | Execute,\n    \x7d\n\n    segment ram \x7b\n        type: Load,\n        permissions: Read | Write,\n    \x7d\n\x7d\n\nsection .text \x7b\n    place_in: FLASH,\n    output_to: segment(flash),\n\n    contents \x7b\n        input(.text*)\n    \x7d\n\x7d\n\ndiscard \x7b\n    input(.comment)\n    input(.note*)\n\x7d\n"

/-- A well-formed memory map: one FLASH region. -/
def goodMapSrc : String :=
  "memory_map \x7b\n    region FLASH \x7b\n        permissions: Read | Execute,\n        start: 0x0800_0000,\n        size: 256K,\n    \x7d\n\x7d"

/-- A section block with malformed interior (missing colon after
`place_in`). -/
def badSectionSrc : String :=
  "\nsection .text \x7b\n    place_in FLASH,\n\x7d"

/-- A contents block where a cfg attribute precedes the first of two
input statements (the repository's `test_parse_cfg_attr` input plus a
following un-wrapped item). -/
def cfgBasicSrc : String :=
  "contents \x7b\n    #[cfg(feature = \"debug\")]\n    input(.debug_text*)\n    input(.text*)\n\x7d"

/-- A contents block with a nested `all`/`not`/`any` cfg predicate. -/
def cfgNestedSrc : String :=
  "contents \x7b\n    #[cfg(all(feature = \"a\", not(feature = \"b\"), any(feature = \"c\", feature = \"d\")))]\n    input(.text*)\n\x7d"

/-- A contents block with two stacked cfg attributes before one item. -/
def cfgStackedSrc : String :=
  "contents \x7b\n    #[cfg(feature = \"a\")]\n    #[cfg(feature = \"b\")]\n    input(.text*)\n    input(.data*)\n\x7d"

/-- A section carrying every one of the ten optional sub-blocks. -/
def allSubBlocksSrc : String :=
  "section foo \x7b\n    place_in: FLASH,\n    load_from: ROM,\n    output_to: segment(flash),\n    permissions: Read,\n    occupies_file_space: true,\n    address \x7b start: 0x1000, \x7d\n    file_position: origin,\n    contents \x7b input(.text*) \x7d\n    assert(size() < 64K, \"too large\");\n    assert_no_cross_references_to(other);\n\x7d"

/-- The parsed value of `allSubBlocksSrc`. -/
def allSubBlocksSection : Section :=
  { name := "foo", place_in := some "FLASH", load_from := some "ROM",
    output_to := some "flash",
    permissions := some ⟨true, false, false⟩,
    occupies_file_space := some true,
    address := some { emptyAddressBlock with start := some (Expr.number 4096) },
    file_position := some { start := FilePositionStart.origin },
    contents := some { items := [ContentsItem.input
      { from_ := none, patterns := [".text*"], sort_by := none }] },
    assertions := [{ condition := Expr.binOp Expr.size BinOp.lt (Expr.number 65536),
                     message := "too large" }],
    no_cross_refs := ["other"] }

/-- A section with only a name. -/
def nameOnlySectionSrc : String := "section foo \x7b\x7d"

/-- A section with exactly one optional sub-block present. -/
def singleFieldSectionSrc : String := "section foo \x7b place_in: FLASH, \x7d"

/-! ## Supporting lemmas -/

/-- A successful multiplier application always yields a value inside the
unsigned 64-bit range. -/
theorem applyMultiplier_ok_lt {v m n : Nat}
    (h : applyMultiplier v m = Except.ok n) : n < U64_LIMIT := by
  by_cases hc : v * m < U64_LIMIT
  · simp [applyMultiplier, hc] at h
    omega
  · simp [applyMultiplier, hc] at h

/-- A successful `finishNumber` always yields a value inside the
unsigned 64-bit range. -/
theorem finishNumber_ok_lt {p : Option Nat} {m n : Nat}
    (h : finishNumber p m = Except.ok n) : n < U64_LIMIT := by
  cases p with
  | none => simp [finishNumber] at h
  | some v => exact applyMultiplier_ok_lt h

/-- Any successfully normalized numeric literal fits in 64 bits. -/
theorem parseNumberCore_ok_lt {cs : List Char} {n : Nat}
    (h : parseNumberCore cs = Except.ok n) : n < U64_LIMIT := by
  unfold parseNumberCore at h
  exact finishNumber_ok_lt h

/-- Any successfully normalized numeric literal fits in 64 bits
(string form). -/
theorem parseNumberLit_ok_lt {s : String} {n : Nat}
    (h : parseNumberLit s = Except.ok n) : n < U64_LIMIT := by
  unfold parseNumberLit at h
  exact parseNumberCore_ok_lt h

/-- The occurrence check agrees with list membership. -/
theorem flagListHas_iff_mem (flags : List String) (f : String) :
    flagListHas flags f = true ↔ f ∈ flags := by
  induction flags with
  | nil => simp [flagListHas]
  | cons s rest ih =>
    by_cases hs : s = f
    · subst hs
      simp [flagListHas]
    · rw [List.mem_cons]
      simp only [flagListHas, if_neg hs, ih]
      constructor
      · exact fun h => Or.inr h
      · rintro (h | h)
        · exact absurd h.symm hs
        · exact h

/-- Folding a flag list over `applyFlag` sets each flag exactly when its
identifier occurs in the list. -/
theorem foldl_applyFlag (flags : List String) (p : Permissions) :
    flags.foldl applyFlag p =
      ⟨p.read || flagListHas flags "Read",
       p.write || flagListHas flags "Write",
       p.execute || flagListHas flags "Execute"⟩ := by
  induction flags generalizing p with
  | nil => simp [flagListHas]
  | cons s rest ih =>
    rw [List.foldl_cons, ih]
    by_cases h1 : s = "Read"
    · subst h1
      simp [applyFlag, flagListHas]
    · by_cases h2 : s = "Write"
      · subst h2
        simp [applyFlag, flagListHas]
      · by_cases h3 : s = "Execute"
        · subst h3
          simp [applyFlag, flagListHas]
        · simp [applyFlag, flagListHas, h1, h2, h3]

/-- Built permissions are exactly the occurrence checks of the three
flag identifiers. -/
theorem buildPermissions_eq (flags : List String) :
    buildPermissions flags =
      ⟨flagListHas flags "Read", flagListHas flags "Write",
       flagListHas flags "Execute"⟩ := by
  unfold buildPermissions Permissions.default
  rw [foldl_applyFlag]
  simp

/-- Flag lists with the same members build the same permissions. -/
theorem buildPermissions_mem_invariant (l₁ l₂ : List String)
    (h : ∀ f, f ∈ l₁ ↔ f ∈ l₂) : buildPermissions l₁ = buildPermissions l₂ := by
  have key : ∀ f, flagListHas l₁ f = flagListHas l₂ f := by
    intro f
    have h2 : flagListHas l₁ f = true ↔ flagListHas l₂ f = true := by
      rw [flagListHas_iff_mem, flagListHas_iff_mem]
      exact h f
    cases ha : flagListHas l₁ f <;> cases hb : flagListHas l₂ f <;> simp_all
  rw [buildPermissions_eq, buildPermissions_eq]
  simp only [key]

/-- A Bool contributes at most one to a sub-block count. -/
theorem bool_toNat_le_one (b : Bool) : b.toNat ≤ 1 := by
  cases b <;> simp

/-- A section has at most ten optional sub-blocks. -/
theorem countPresentSubBlocks_le_ten (s : Section) : countPresentSubBlocks s ≤ 10 := by
  unfold countPresentSubBlocks
  have h1 := bool_toNat_le_one s.place_in.isSome
  have h2 := bool_toNat_le_one s.load_from.isSome
  have h3 := bool_toNat_le_one s.output_to.isSome
  have h4 := bool_toNat_le_one s.permissions.isSome
  have h5 := bool_toNat_le_one s.occupies_file_space.isSome
  have h6 := bool_toNat_le_one s.address.isSome
  have h7 := bool_toNat_le_one s.file_position.isSome
  have h8 := bool_toNat_le_one s.contents.isSome
  have h9 := bool_toNat_le_one (!s.assertions.isEmpty)
  have h10 := bool_toNat_le_one (!s.no_cross_refs.isEmpty)
  omega

/-! ## Claim theorems -/

/-- C1: the expression parser resolves operator precedence by precedence
climbing with binding order relational < additive < multiplicative <
unary minus < postfix, with uniform left-associativity within each tier;
in particular `1 + 2 * 3` parses to Add(1, Mul(2,3)) and `a < b + c`
parses to Lt(a, Add(b,c)). -/
theorem expr_precedence_climbing :
    parseExprText "1 + 2 * 3" =
      Except.ok (Expr.binOp (Expr.number 1) BinOp.add
        (Expr.binOp (Expr.number 2) BinOp.mul (Expr.number 3))) ∧
    parseExprText "a < b + c" =
      Except.ok (Expr.binOp (Expr.ident "a") BinOp.lt
        (Expr.binOp (Expr.ident "b") BinOp.add (Expr.ident "c"))) ∧
    parseExprText "1 - 2 - 3" =
      Except.ok (Expr.binOp
        (Expr.binOp (Expr.number 1) BinOp.sub (Expr.number 2))
        BinOp.sub (Expr.number 3)) ∧
    parseExprText "a / b % c" =
      Except.ok (Expr.binOp
        (Expr.binOp (Expr.ident "a") BinOp.div (Expr.ident "b"))
        BinOp.mod (Expr.ident "c")) ∧
    parseExprText "a < b == c" =
      Except.ok (Expr.binOp
        (Expr.binOp (Expr.ident "a") BinOp.lt (Expr.ident "b"))
        BinOp.eq (Expr.ident "c")) ∧
    parseExprText "-a * b" =
      Except.ok (Expr.binOp (Expr.unaryMinus (Expr.ident "a"))
        BinOp.mul (Expr.ident "b")) ∧
    parseExprText "-a.f" =
      Except.ok (Expr.unaryMinus (Expr.member (Expr.ident "a") "f")) ∧
    parseExprText "a.f(b, c) + 1" =
      Except.ok (Expr.binOp
        (Expr.call (Expr.member (Expr.ident "a") "f")
          [Expr.ident "b", Expr.ident "c"])
        BinOp.add (Expr.number 1)) :=
  ⟨by rfl, by rfl, by rfl, by rfl, by rfl, by rfl, by rfl, by rfl⟩

/-- C2: numeric literals drop `_` separators, read an optional `0x`
prefix as hexadecimal, apply the `K`/`M` multiplier after separator
removal, and produce an unsigned 64-bit `Expr.number`: `64K` is 65536,
`0x0800_0000` is 134217728, `256K` is 262144, and
`0xffff_ffff_0000_0000` is the 64-bit hex value with underscores
removed. -/
theorem numeric_literal_normalization :
    parseNumberLit "64K" = Except.ok 65536 ∧
    parseNumberLit "0x0800_0000" = Except.ok 134217728 ∧
    parseNumberLit "256K" = Except.ok 262144 ∧
    parseNumberLit "0xffff_ffff_0000_0000" = Except.ok 18446744069414584320 ∧
    parseExprText "64K" = Except.ok (Expr.number 65536) ∧
    parseExprText "0x0800_0000" = Except.ok (Expr.number 134217728) :=
  ⟨by rfl, by rfl, by rfl, by rfl, by rfl, by rfl⟩

/-- C3: a numeric literal whose value leaves the unsigned 64-bit range
when the `K`/`M` multiplier is applied fails with a `StructuralError`;
successful parses never wrap: every parsed value is below 2^64. -/
theorem numeric_overflow_structural :
    (∀ v m, U64_LIMIT ≤ v * m →
      applyMultiplier v m =
        Except.error (ParseError.structural "numeric literal overflow")) ∧
    parseNumberLit "0x4000_0000_0000_0000K" =
      Except.error (ParseError.structural "numeric literal overflow") ∧
    parseNumberLit "0xffff_ffff_ffff_ffffM" =
      Except.error (ParseError.structural "numeric literal overflow") ∧
    (∀ s n, parseNumberLit s = Except.ok n → n < U64_LIMIT) := by
  refine ⟨?_, by rfl, by rfl, ?_⟩
  · intro v m h
    unfold applyMultiplier
    rw [if_neg (by omega)]
  · intro s n h
    exact parseNumberLit_ok_lt h

/-- Witness for C3 at concrete inputs: 2^32 × 2^32 overflows and errors,
and the parsed value of `64K` is inside the 64-bit range. -/
theorem numeric_overflow_structural_witness :
    applyMultiplier 4294967296 4294967296 =
      Except.error (ParseError.structural "numeric literal overflow") ∧
    (65536 : Nat) < U64_LIMIT :=
  ⟨numeric_overflow_structural.1 4294967296 4294967296 (by decide),
   numeric_overflow_structural.2.2.2 "64K" 65536 (by rfl)⟩

/-- C4: a `|`-joined permission flag list sets exactly the named flags,
and the result is invariant under reordering and duplication of the
flags: `Read | Execute` yields read and execute only, identically to
`Execute | Read` and `Read | Read | Execute`, and any two flag lists
with the same members build identical permissions. -/
theorem permissions_flag_semantics :
    parsePermissionsText "Read | Execute" =
      Except.ok ⟨true, false, true⟩ ∧
    parsePermissionsText "Execute | Read" =
      Except.ok ⟨true, false, true⟩ ∧
    parsePermissionsText "Read | Read | Execute" =
      Except.ok ⟨true, false, true⟩ ∧
    (∀ l₁ l₂ : List String, (∀ f, f ∈ l₁ ↔ f ∈ l₂) →
      buildPermissions l₁ = buildPermissions l₂) :=
  ⟨by rfl, by rfl, by rfl, buildPermissions_mem_invariant⟩

/-- Witness for C4 at concrete flag lists related by reordering and
duplication. -/
theorem permissions_flag_semantics_witness :
    buildPermissions ["Read", "Execute"] =
      buildPermissions ["Execute", "Read", "Read"] :=
  permissions_flag_semantics.2.2.2 _ _ (by intro f; simp [List.mem_cons]; tauto)

/-- C5: a `#[cfg(...)]` attribute attaches to exactly the next single
content item, producing one `cfg` wrapper per attribute with exactly one
inner item, nested `all`/`any`/`not` predicates build a `CfgPredicate`
tree preserving argument order, and subsequent content items are left
un-wrapped. -/
theorem cfg_attaches_to_next_item :
    parseAt StartRule.contentsRule cfgBasicSrc =
      Except.ok (ParsedNode.contentsNode { items := [
        ContentsItem.cfg (CfgPredicate.feature "debug")
          (ContentsItem.input
            { from_ := none, patterns := [".debug_text*"], sort_by := none }),
        ContentsItem.input
          { from_ := none, patterns := [".text*"], sort_by := none }] }) ∧
    parseAt StartRule.contentsRule cfgNestedSrc =
      Except.ok (ParsedNode.contentsNode { items := [
        ContentsItem.cfg
          (CfgPredicate.allP [CfgPredicate.feature "a",
            CfgPredicate.notP (CfgPredicate.feature "b"),
            CfgPredicate.anyP [CfgPredicate.feature "c", CfgPredicate.feature "d"]])
          (ContentsItem.input
            { from_ := none, patterns := [".text*"], sort_by := none })] }) ∧
    parseAt StartRule.contentsRule cfgStackedSrc =
      Except.ok (ParsedNode.contentsNode { items := [
        ContentsItem.cfg (CfgPredicate.feature "a")
          (ContentsItem.cfg (CfgPredicate.feature "b")
            (ContentsItem.input
              { from_ := none, patterns := [".text*"], sort_by := none })),
        ContentsItem.input
          { from_ := none, patterns := [".data*"], sort_by := none }] }) :=
  ⟨by rfl, by rfl, by rfl⟩

/-- C6: parsing is all-or-nothing: a well-formed file parses to its
items, appending a section block with a malformed interior makes the
whole-file parse fail at the offending position (it is not silently
dropped), and an errored parse never also returns an AST. -/
theorem parse_all_or_nothing :
    parseAt StartRule.file goodMapSrc =
      Except.ok (ParsedNode.fileNode [Item.memoryMap
        { regions := [{ name := "FLASH",
                        permissions := ⟨true, false, true⟩,
                        start := Expr.number 134217728,
                        size := Expr.number 262144 }] }]) ∧
    parseAt StartRule.file (goodMapSrc ++ badSectionSrc) =
      Except.error (ParseError.syntaxErr 4 "expected section sub-block") ∧
    (∀ rule s e, parseAt rule s = Except.error e →
      ∀ node, parseAt rule s ≠ Except.ok node) := by
  refine ⟨by rfl, by rfl, ?_⟩
  intro rule s e he node hok
  rw [he] at hok
  simp at hok

/-- Witness for C6: the file with the malformed section block is not
parsed to any item list, in particular not to the empty one. -/
theorem parse_all_or_nothing_witness :
    parseAt StartRule.file (goodMapSrc ++ badSectionSrc) ≠
      Except.ok (ParsedNode.fileNode []) :=
  parse_all_or_nothing.2.2 StartRule.file (goodMapSrc ++ badSectionSrc)
    (ParseError.syntaxErr 4 "expected section sub-block") (by rfl)
    (ParsedNode.fileNode [])

/-- C7: the embedded whole-file test input parses to a 4-element item
sequence in source order — memory map (two regions), ELF segments (two
segments), section with contents, discard — each node fully populated. -/
theorem full_file_parse_in_order :
    parseAt StartRule.file fullFileSrc =
      Except.ok (ParsedNode.fileNode
        [Item.memoryMap
           { regions := [{ name := "FLASH",
                           permissions := ⟨true, false, true⟩,
                           start := Expr.number 134217728,
                           size := Expr.number 262144 },
                         { name := "RAM",
                           permissions := ⟨true, true, true⟩,
                           start := Expr.number 536870912,
                           size := Expr.number 65536 }] },
         Item.elfSegments
           { segments := [{ name := "flash",
                            segment_type := SegmentType.load,
                            permissions := ⟨true, false, true⟩ },
                          { name := "ram",
                            segment_type := SegmentType.load,
                            permissions := ⟨true, true, false⟩ }] },
         Item.section
           { name := ".text",
             place_in := some "FLASH",
             load_from := none,
             output_to := some "flash",
             permissions := none,
             occupies_file_space := none,
             address := none,
             file_position := none,
             contents := some { items := [ContentsItem.input
               { from_ := none, patterns := [".text*"], sort_by := none }] },
             assertions := [],
             no_cross_refs := [] },
         Item.discard
           { patterns := [{ from_ := none,
                            patterns := [".comment"],
                            sort_by := none },
                          { from_ := none,
                            patterns := [".note*"],
                            sort_by := none }] }]) := by
  rfl

/-- C8 counterexample: a parsed section can carry ten present optional
sub-blocks at once, refuting the bound of nine. -/
theorem section_sub_blocks_exceed_nine :
    parseAt StartRule.sectionRule allSubBlocksSrc =
      Except.ok (ParsedNode.sectionNode allSubBlocksSection) ∧
    countPresentSubBlocks allSubBlocksSection = 10 :=
  ⟨by rfl, by rfl⟩

/-- C8 (amended): every parsed section consists of a required name plus
up to ten optional sub-blocks; a section with only a name is valid with
every sub-block absent, and a sub-block field is populated exactly when
present in the source, with no defaulting. -/
theorem section_name_only_and_sub_blocks :
    parseAt StartRule.sectionRule nameOnlySectionSrc =
      Except.ok (ParsedNode.sectionNode (emptySection "foo")) ∧
    parseAt StartRule.sectionRule singleFieldSectionSrc =
      Except.ok (ParsedNode.sectionNode
        { emptySection "foo" with place_in := some "FLASH" }) ∧
    (∀ s : Section, countPresentSubBlocks s ≤ 10) :=
  ⟨by rfl, by rfl, countPresentSubBlocks_le_ten⟩

/-- C9: parsing is deterministic: for every source text and start rule,
two parse invocations produce identical results. -/
theorem parse_deterministic (rule : StartRule) (s : String)
    (r₁ r₂ : Except ParseError ParsedNode)
    (h₁ : parseAt rule s = r₁) (h₂ : parseAt rule s = r₂) : r₁ = r₂ := by
  rw [← h₁, ← h₂]

/-- Witness for C9 at a concrete source text and start rule. -/
theorem parse_deterministic_witness :
    parseAt StartRule.exprRule "1 + 2 * 3" =
      Except.ok (ParsedNode.exprNode (Expr.binOp (Expr.number 1) BinOp.add
        (Expr.binOp (Expr.number 2) BinOp.mul (Expr.number 3)))) :=
  parse_deterministic StartRule.exprRule "1 + 2 * 3" _ _ rfl rfl

/-- C10: every parsed constant declaration carries a public flag: a
`pub const` declaration yields public = true, a plain `const`
declaration yields public = false, alongside name, optional type
annotation and value expression. -/
theorem const_decl_public_flag :
    parseAt StartRule.constDeclRule
        "pub const KERNEL_VIRT_BASE: Address = 0xffff_ffff_0000_0000;" =
      Except.ok (ParsedNode.constDeclNode
        { public := true, name := "KERNEL_VIRT_BASE", type_ann := some "Address",
          value := Expr.number 18446744069414584320 }) ∧
    parseAt StartRule.constDeclRule "const PAGE_SIZE: usize = 64K;" =
      Except.ok (ParsedNode.constDeclNode
        { public := false, name := "PAGE_SIZE", type_ann := some "usize",
          value := Expr.number 65536 }) :=
  ⟨by rfl, by rfl⟩

end Linkrs
